import Mathlib

/-!
Verification development for the dataset-conversion subsystem of the Music
repository (`src/dataset_conversion_new.py` and its caller `src/model.py`).

The Python code is shallowly embedded:

* a numpy timestep matrix of shape `(128, T)` is modelled as the list of its
  `T` columns, each column a list of 128 rationals (real-valued entries are
  modelled as rationals);
* the per-example tensors of shape `(128, k)` are likewise lists of `k`
  columns;
* the external collaborators (`utils.get_files_by_ext`, file reading,
  `utils.str_to_np`) are abstracted by passing `txt_to_dataset` the list of
  parsed timestep matrices of the directory's `.txt` files, in listing
  order;
* optional Python parameters become `Option Nat`, and code paths that raise
  (`TypeError` on `None` arithmetic, `ZeroDivisionError` on `step = 0`,
  `KeyError` on a missing dictionary key) return `Except.error`;
* `exit(1)` in the constructor is modelled as a distinguished
  process-termination outcome of the construction.
-/

namespace Music

/-- One timestep column: 128 pitch rows (entries modelled as rationals). -/
abbrev Col : Type := List ℚ

/-- A per-file timestep matrix, stored as its list of columns; its numpy
shape is `(128, length)`. -/
abbrev TimestepMatrix : Type := List Col

/-- One extracted window (input or output example): a list of columns. -/
abbrev Window : Type := List Col

/-- `utils.NOTES_SIZE`. Modelled from the spec: the MIDI utilities are an
external collaborator (not under version control here); the spec fixes the
pitch range to 128 semitone slots and the separator to the character just
outside that alphabet. -/
def NOTES_SIZE : Nat := 128

/-- Line 21: `SEPARATOR = chr(utils.NOTES_SIZE)`. -/
def SEPARATOR : Char := Char.ofNat NOTES_SIZE

/-- Line 22. -/
def DEFAULT_NUM_INPUT : Nat := 16

/-- Line 23. -/
def DEFAULT_NUM_OUTPUT : Nat := 1

/-- The instance state of a `DatasetConversion` object (lines 31-40).
The two dictionaries are modelled as insertion-ordered association lists. -/
structure DatasetConversion where
  data_to_int : List (String × Nat)
  int_to_data : List (Nat × String)
  dir_path : String
  sep_by_type : String
deriving Repr, DecidableEq

/-- Outcome of running `__init__`: either a constructed object, or process
termination via `exit(code)` (line 40). -/
inductive InitResult where
  | ok (dc : DatasetConversion)
  | exit (code : Nat)
deriving Repr, DecidableEq

/-- Lines 31-40: `__init__(directory_path='.', sep_by_type='word')`.
`data_to_int` and `int_to_data` start empty; an unrecognized
`sep_by_type` prints a message and terminates the process with `exit(1)`. -/
def DatasetConversion.init (directory_path : String) (sep_by_type : String) :
    InitResult :=
  if sep_by_type ∈ (["word", "char"] : List String) then
    .ok ⟨[], [], directory_path, sep_by_type⟩
  else
    .exit 1

/-- Line 72: `num_input_size = DEFAULT_NUM_INPUT if input_window_size is
None else input_window_size`. -/
def resolve_num_input (input_window_size : Option Nat) : Nat :=
  match input_window_size with
  | none => DEFAULT_NUM_INPUT
  | some n => n

/-- Line 73, kept exactly as written in the source: `num_output_size =
DEFAULT_NUM_OUTPUT if input_window_size is None else output_window_size` —
the guard tests `input_window_size`, so the result can be `None`
(in Python: the later `num_input_size + num_output_size` then raises
`TypeError`). -/
def resolve_num_output (input_window_size output_window_size : Option Nat) :
    Option Nat :=
  if input_window_size.isNone then some DEFAULT_NUM_OUTPUT
  else output_window_size

/-- Line 97: `num_examples = (dataset.shape[1] - total_size_per_feed) //
step`, Python floor division on possibly-negative integers. -/
def num_examples (T nin nout step : Nat) : ℤ :=
  Int.fdiv ((T : ℤ) - ((nin : ℤ) + nout)) (step : ℤ)

/-- An all-zero example block slot of `k` columns, 128 rows each
(one slot of `np.zeros((sz, 128, k))`). -/
def zeroWindow (k : Nat) : Window :=
  List.replicate k (List.replicate 128 (0 : ℚ))

/-- `np.zeros((sz, 128, k))`: `sz` all-zero example slots. -/
def zeroBlock (sz k : Nat) : List Window :=
  List.replicate sz (zeroWindow k)

/-- Python list/array assignment `xs[i] = v` with Python index semantics:
a negative index counts from the end.  (An index outside `[-len, len)`
raises in Python; the executions modelled below never produce one.) -/
def pySet (xs : List Window) (i : ℤ) (v : Window) : List Window :=
  if 0 ≤ i then xs.set i.toNat v
  else xs.set ((xs.length : ℤ) + i).toNat v

/-- Python slice `xs[:n]` with Python semantics for a negative stop:
`xs[:n] = xs[:len+n]` when `n < 0` (empty when `len + n ≤ 0`). -/
def pyTruncate (xs : List Window) (n : ℤ) : List Window :=
  if 0 ≤ n then xs.take n.toNat
  else xs.take ((xs.length : ℤ) + n).toNat

/-- The mutable loop state of `txt_to_dataset` (lines 82-87): the two
accumulating buffers, the current growth block size, and the running
example counter `file_example_start_idx`. -/
structure Acc where
  X : List Window
  Y : List Window
  extend_sz : Nat
  file_example_start_idx : ℤ

/-- One iteration of the inner loop `for idx in range(num_examples)`
(lines 103-117): slice the input window `dataset[:, idx*step : idx*step +
num_input_size]` and the output window `dataset[:, idx*step +
num_input_size : idx*step + total_size_per_feed]`, grow both buffers by
`extend_sz` zero slots (doubling `extend_sz`) when the write position
reaches `X.shape[0]`, then store both windows at position
`file_example_start_idx + idx`. -/
def writeStep (m : TimestepMatrix) (nin nout step : Nat) (acc : Acc)
    (idx : Nat) : Acc :=
  let input_x : Window := (m.drop (idx * step)).take nin
  let output_y : Window := (m.drop (idx * step + nin)).take nout
  let acc' : Acc :=
    if acc.file_example_start_idx + (idx : ℤ) ≥ (acc.X.length : ℤ) then
      { X := acc.X ++ zeroBlock acc.extend_sz nin
        Y := acc.Y ++ zeroBlock acc.extend_sz nout
        extend_sz := acc.extend_sz * 2
        file_example_start_idx := acc.file_example_start_idx }
    else acc
  { acc' with
    X := pySet acc'.X (acc'.file_example_start_idx + (idx : ℤ)) input_x
    Y := pySet acc'.Y (acc'.file_example_start_idx + (idx : ℤ)) output_y }

/-- The per-file body of the outer loop (lines 87-119): run the inner loop
over `range(num_examples)` and then advance `file_example_start_idx` by
the (unclamped, possibly negative) `num_examples`. -/
def processFile (nin nout step : Nat) (acc : Acc) (m : TimestepMatrix) : Acc :=
  let ne : ℤ := num_examples m.length nin nout step
  let acc' := (List.range ne.toNat).foldl (writeStep m nin nout step) acc
  { acc' with file_example_start_idx := acc'.file_example_start_idx + ne }

/-- The initial loop state (lines 82-86): `extend_sz = 10000`,
`X = np.zeros((10000, 128, nin))`, `Y = np.zeros((10000, 128, nout))`,
and `file_example_start_idx = 0`. -/
def initAcc (nin nout : Nat) : Acc :=
  ⟨zeroBlock 10000 nin, zeroBlock 10000 nout, 10000, 0⟩

/-- Lines 59-121: `txt_to_dataset(input_window_size=None,
output_window_size=None, step=1)`.  `files` is the list of parsed timestep
matrices of the directory's `.txt` files in listing order (the external
`utils.get_files_by_ext` / `utils.str_to_np` collaborators).  A `None`
resolved output size raises `TypeError` at line 79; `step = 0` raises
`ZeroDivisionError` at line 97 as soon as one file is processed.  The
buffers start as `np.zeros((10000, 128, k))` and the final result is the
slice `X[:file_example_start_idx], Y[:file_example_start_idx]`. -/
def txt_to_dataset (files : List TimestepMatrix)
    (input_window_size output_window_size : Option Nat) (step : Nat) :
    Except String (List Window × List Window) :=
  match resolve_num_output input_window_size output_window_size with
  | none => .error "TypeError"
  | some nout =>
    let nin := resolve_num_input input_window_size
    if step = 0 ∧ files ≠ [] then .error "ZeroDivisionError"
    else
      let a := files.foldl (processFile nin nout step) (initAcc nin nout)
      .ok (pyTruncate a.X a.file_example_start_idx,
           pyTruncate a.Y a.file_example_start_idx)

/-- `np.around`: round half to even (numpy's rounding), on rationals. -/
def npAround (q : ℚ) : ℤ :=
  let f : ℤ := ⌊q⌋
  let frac : ℚ := q - (f : ℚ)
  if frac < 1/2 then f
  else if 1/2 < frac then f + 1
  else if f % 2 = 0 then f else f + 1

/-- Lines 136-138 of `dataset_to_str`: scale one prediction value by
`len(self.int_to_data)`, round to the nearest integer
(`np.around`), and clamp with `np.minimum(np.maximum(·, 0),
len(self.int_to_data) - 1)`. -/
def scaleRoundClamp (n : Nat) (v : ℚ) : ℤ :=
  min (max (npAround (v * (n : ℚ))) 0) ((n : ℤ) - 1)

/-- Python dictionary lookup `int_to_data[k]` on the (integer-valued)
rounded key, as an association-list search; `none` models `KeyError`. -/
def dictGet? (d : List (Nat × String)) (k : ℤ) : Option String :=
  (d.find? (fun p => ((p.1 : ℤ) == k))).map (fun p => p.2)

/-- Line 142: the comprehension `[self.int_to_data[Y[i]] for i in
range(len(Y))]`, which raises `KeyError` on the first missing key. -/
def decodeIndices (d : List (Nat × String)) : List ℤ → Except String (List String)
  | [] => .ok []
  | k :: ks =>
    match dictGet? d k with
    | none => .error "KeyError"
    | some s => (decodeIndices d ks).map (fun rest => s :: rest)

/-- Lines 123-148: `dataset_to_str(Y)`.  `Y` is the flattened prediction
list (`Y.flatten().tolist()`); each value is scaled, rounded and clamped,
looked up in `int_to_data`, and the symbols are joined with `SEPARATOR` in
word mode or concatenated in char mode.  If `sep_by_type` is neither,
`str_output` is unbound at the `return` (Python `UnboundLocalError`). -/
def dataset_to_str (dc : DatasetConversion) (Y : List ℚ) :
    Except String String :=
  let n := dc.int_to_data.length
  let idxs := Y.map (fun v => scaleRoundClamp n v)
  match decodeIndices dc.int_to_data idxs with
  | .error e => .error e
  | .ok Y_str =>
    if dc.sep_by_type = "word" then
      .ok (String.intercalate (String.singleton SEPARATOR) Y_str)
    else if dc.sep_by_type = "char" then
      .ok (String.join Y_str)
    else .error "UnboundLocalError"

/-- Lines 42-57: `midi_to_txt` delegates to the external MIDI collaborator
and assigns no attribute of `self`; its effect on the instance state is the
identity. -/
def afterMidiToTxt (dc : DatasetConversion) : DatasetConversion := dc

/-- Lines 59-121: `txt_to_dataset` assigns no attribute of `self` (all its
variables are locals); its effect on the instance state is the identity. -/
def afterTxtToDataset (dc : DatasetConversion) (_files : List TimestepMatrix)
    (_iws _ows : Option Nat) (_step : Nat) : DatasetConversion := dc

/-- Lines 123-148: `dataset_to_str` reads `int_to_data` and `sep_by_type`
but assigns no attribute of `self`. -/
def afterDatasetToStr (dc : DatasetConversion) (_Y : List ℚ) :
    DatasetConversion := dc

/-- Lines 150-163: `str_to_midi` delegates to the external MIDI
collaborator and assigns no attribute of `self`. -/
def afterStrToMidi (dc : DatasetConversion) (_text : String)
    (_filename : Option String) : DatasetConversion := dc

/-- The instance states reachable through the public API: a successful
construction, followed by any sequence of the four methods. -/
inductive Reachable : DatasetConversion → Prop
  | init (d s : String) (dc : DatasetConversion) :
      DatasetConversion.init d s = .ok dc → Reachable dc
  | midi_to_txt (dc : DatasetConversion) :
      Reachable dc → Reachable (afterMidiToTxt dc)
  | txt_to_dataset (dc : DatasetConversion) (fs : List TimestepMatrix)
      (iws ows : Option Nat) (st : Nat) :
      Reachable dc → Reachable (afterTxtToDataset dc fs iws ows st)
  | dataset_to_str (dc : DatasetConversion) (Y : List ℚ) :
      Reachable dc → Reachable (afterDatasetToStr dc Y)
  | str_to_midi (dc : DatasetConversion) (t : String) (fn : Option String) :
      Reachable dc → Reachable (afterStrToMidi dc t fn)

/-- Modelled from the spec: the Vocabulary Codec `encode` operation
(spec §4.1) is absent from the repository sources (nothing ever inserts
into `data_to_int`/`int_to_data`); per the spec, a new symbol is assigned
the next unused integer, monotonically increasing from 0, and both
directions are recorded; a known symbol returns its existing index. -/
def encodeSymbol (dc : DatasetConversion) (s : String) :
    DatasetConversion × Nat :=
  match (dc.data_to_int.find? (fun p => p.1 == s)).map (fun p => p.2) with
  | some i => (dc, i)
  | none =>
    let i := dc.data_to_int.length
    ({ dc with
        data_to_int := dc.data_to_int ++ [(s, i)]
        int_to_data := dc.int_to_data ++ [(i, s)] }, i)

/-- Modelled from the spec: `encode_sequence` (spec §4.2) maps each symbol
of the tokenized text through the Vocabulary Codec in order. -/
def encode_sequence (dc : DatasetConversion) :
    List String → DatasetConversion × List Nat
  | [] => (dc, [])
  | s :: rest =>
    let p := encodeSymbol dc s
    let q := encode_sequence p.1 rest
    (q.1, p.2 :: q.2)

/-- Modelled from the spec: the quantized identity encoding (spec §8)
sends vocabulary index `i` of an `n`-symbol vocabulary to the real value
`i / n`, which the decode quantization (scale by `n`, round) maps back to
`i`. -/
def quantIdentity (n : Nat) (i : Nat) : ℚ := (i : ℚ) / (n : ℚ)

/-- A concrete all-zero timestep matrix with `T` timesteps (128 pitch
rows), used for concrete corpus evaluations. -/
def sampleMatrix (T : Nat) : TimestepMatrix :=
  List.replicate T (List.replicate 128 (0 : ℚ))

/-- The session whose vocabulary maps index `0` to the single symbol
`"a"`, used as a concrete nonempty-vocabulary instance. -/
def singletonSession : DatasetConversion :=
  ⟨[("a", 0)], [(0, "a")], ".", "word"⟩

/-- `int_to_data` enumerates the symbol list `syms` in index order
(index `i` paired with the `i`-th symbol) and `data_to_int` is its
mirror image — the shape the spec's incrementally built vocabulary
always has. -/
def VocabRepr (dc : DatasetConversion) (syms : List String) : Prop :=
  dc.data_to_int = syms.enum.map (fun p => (p.2, p.1)) ∧
  dc.int_to_data = syms.enum

/-! ### Rounding and clamping lemmas -/

theorem floor_le_npAround (q : ℚ) : ⌊q⌋ ≤ npAround q := by
  unfold npAround
  dsimp only
  split
  · exact le_refl _
  · split
    · omega
    · split <;> omega

theorem npAround_le_floor_add_one (q : ℚ) : npAround q ≤ ⌊q⌋ + 1 := by
  unfold npAround
  dsimp only
  split
  · omega
  · split
    · omega
    · split <;> omega

theorem npAround_intCast (k : ℤ) : npAround (k : ℚ) = k := by
  unfold npAround
  dsimp only
  rw [Int.floor_intCast]
  have h : (k : ℚ) - (k : ℚ) = 0 := by ring
  rw [h]
  norm_num

theorem npAround_nonpos {q : ℚ} (h : q < 0) : npAround q ≤ 0 := by
  have h1 : ⌊q⌋ < 0 := Int.floor_lt.2 (by exact_mod_cast h)
  have h2 := npAround_le_floor_add_one q
  omega

theorem le_npAround_of_lt {n : ℤ} {q : ℚ} (h : (n : ℚ) < q) :
    n ≤ npAround q := by
  have h1 : n ≤ ⌊q⌋ := Int.le_floor.2 h.le
  have h2 := floor_le_npAround q
  omega

theorem scaleRoundClamp_mem {n : Nat} (hn : 1 ≤ n) (v : ℚ) :
    0 ≤ scaleRoundClamp n v ∧ scaleRoundClamp n v < (n : ℤ) := by
  unfold scaleRoundClamp
  have : (1 : ℤ) ≤ (n : ℤ) := by exact_mod_cast hn
  omega

/-! ### Vocabulary association-list lemmas -/

theorem find?_enumFrom_eq :
    ∀ (l : List String) (n k : Nat) (key : ℤ), key = ((n + k : Nat) : ℤ) →
      k < l.length →
      (l.enumFrom n).find? (fun p => ((p.1 : ℤ) == key)) =
        l[k]?.map (fun s => (n + k, s))
  | [], _, k, _, _, hk => by simp at hk
  | a :: l, n, 0, key, hkey, _ => by
    subst hkey
    simp [List.enumFrom_cons, List.find?]
  | a :: l, n, k + 1, key, hkey, hk => by
    subst hkey
    have hne : (((n : ℤ) == ((n + (k + 1) : Nat) : ℤ))) = false := by
      simp only [beq_eq_false_iff_ne, ne_eq]
      intro hcon
      omega
    have ih := find?_enumFrom_eq l (n + 1) k ((((n + 1) + k : Nat) : ℤ))
      rfl (by simpa using Nat.lt_of_succ_lt_succ hk)
    rw [List.enumFrom_cons]
    rw [List.find?_cons_of_neg _ (by simpa using hne)]
    have harith : (n + 1) + k = n + (k + 1) := by omega
    rw [harith] at ih
    rw [ih]
    simp

theorem dictGet?_enum (syms : List String) (k : Nat) (hk : k < syms.length) :
    dictGet? syms.enum (k : ℤ) = syms[k]? := by
  unfold dictGet?
  have h := find?_enumFrom_eq syms 0 k ((k : Nat) : ℤ) (by simp) hk
  rw [show syms.enum = syms.enumFrom 0 from rfl, h]
  cases hsome : syms[k]? with
  | none => simp
  | some s => simp

theorem dictGet?_vocab_isSome {dc : DatasetConversion} {syms : List String}
    (h : VocabRepr dc syms) {k : ℤ} (h0 : 0 ≤ k) (hk : k < (syms.length : ℤ)) :
    ∃ s, dictGet? dc.int_to_data k = some s := by
  obtain ⟨-, hi⟩ := h
  have hknat : k = ((k.toNat : Nat) : ℤ) := (Int.toNat_of_nonneg h0).symm
  have hlt : k.toNat < syms.length := by omega
  rw [hi, hknat, dictGet?_enum syms k.toNat hlt]
  exact ⟨syms[k.toNat], List.getElem?_eq_getElem hlt⟩

/-! ### Claims C4, C3, C7, C2 -/

/-- C4 (amended: the session's vocabulary must be nonempty, `n ≥ 1`; the
code's only reachable sessions have `n = 0`, where the clamp yields `-1`,
see the counterexample): in `dataset_to_str` every prediction value is
scaled by the vocabulary size, rounded, and clamped into
`[0, vocabulary_size - 1]`; every `v < 0` yields index `0`, every
`v > vocabulary_size` yields `vocabulary_size - 1`, and both boundary
indices are attained (at `v = 0` and `v = 1`), so the clamp is inclusive
on both ends. -/
theorem C4_scale_round_clamp_bounds (n : Nat) (hn : 1 ≤ n) :
    (∀ v : ℚ, v < 0 → scaleRoundClamp n v = 0) ∧
    (∀ v : ℚ, (n : ℚ) < v → scaleRoundClamp n v = (n : ℤ) - 1) ∧
    scaleRoundClamp n 0 = 0 ∧
    scaleRoundClamp n 1 = (n : ℤ) - 1 := by
  have hn' : (1 : ℤ) ≤ (n : ℤ) := by exact_mod_cast hn
  have hnq : (0 : ℚ) < (n : ℚ) := by exact_mod_cast Nat.lt_of_lt_of_le Nat.zero_lt_one hn
  refine ⟨fun v hv => ?_, fun v hv => ?_, ?_, ?_⟩
  · have hq : v * (n : ℚ) < 0 := mul_neg_of_neg_of_pos hv hnq
    have h1 := npAround_nonpos hq
    unfold scaleRoundClamp
    omega
  · have h1 : (n : ℚ) ≤ (n : ℚ) * (n : ℚ) :=
      le_mul_of_one_le_left hnq.le (by exact_mod_cast hn)
    have h2 : (n : ℚ) * (n : ℚ) < v * (n : ℚ) :=
      mul_lt_mul_of_pos_right hv hnq
    have h3 : (((n : ℤ)) : ℚ) < v * (n : ℚ) := by push_cast; linarith
    have h4 := le_npAround_of_lt h3
    unfold scaleRoundClamp
    omega
  · have h0 : npAround ((0 : ℚ) * (n : ℚ)) = 0 := by
      rw [zero_mul, show (0 : ℚ) = ((0 : ℤ) : ℚ) by norm_num]
      exact npAround_intCast 0
    unfold scaleRoundClamp
    rw [h0]
    omega
  · have h0 : npAround ((1 : ℚ) * (n : ℚ)) = (n : ℤ) := by
      rw [one_mul, show ((n : ℕ) : ℚ) = (((n : ℕ) : ℤ) : ℚ) by push_cast; ring]
      exact npAround_intCast (n : ℤ)
    unfold scaleRoundClamp
    rw [h0]
    omega

/-- C4 witness: the clamp bounds theorem applied at vocabulary size 2 with
raw values -3, 5, 0 and 1. -/
theorem C4_witness :
    scaleRoundClamp 2 (-3) = 0 ∧
    scaleRoundClamp 2 5 = (2 : ℤ) - 1 ∧
    scaleRoundClamp 2 0 = 0 ∧
    scaleRoundClamp 2 1 = (2 : ℤ) - 1 :=
  ⟨(C4_scale_round_clamp_bounds 2 (by decide)).1 (-3) (by decide),
   (C4_scale_round_clamp_bounds 2 (by decide)).2.1 5 (by norm_num),
   (C4_scale_round_clamp_bounds 2 (by decide)).2.2.1,
   (C4_scale_round_clamp_bounds 2 (by decide)).2.2.2⟩

/-- C4 counterexample: in the only sessions the code can construct, the
vocabulary is empty (`len(int_to_data) = 0`), and the scale-round-clamp of
the negative raw value `-1` is `-1`, not the claimed `0` (line 138 clamps
with `len(int_to_data) - 1 = -1` as upper bound). -/
theorem C4_counterexample :
    DatasetConversion.init "." "word" = .ok ⟨[], [], ".", "word"⟩ ∧
    scaleRoundClamp
      ((⟨[], [], ".", "word"⟩ : DatasetConversion).int_to_data.length)
      (-1) = -1 ∧ (-1 : ℤ) ≠ 0 := by
  refine ⟨by decide, ?_, by decide⟩
  show scaleRoundClamp 0 (-1) = -1
  have h0 : npAround ((-1 : ℚ) * ((0 : ℕ) : ℚ)) = 0 := by
    rw [show ((-1 : ℚ) * ((0 : ℕ) : ℚ)) = ((0 : ℤ) : ℚ) by push_cast; ring]
    exact npAround_intCast 0
  unfold scaleRoundClamp
  rw [h0]
  omega

/-- C3 (amended: restricted to sessions whose `int_to_data` enumerates a
nonempty symbol list with contiguous keys `0..n-1`; in the code's only
reachable sessions the vocabulary is empty and the lookup does fail, see
the counterexample): every index produced by `dataset_to_str`'s
scale-round-clamp steps is a key of `int_to_data`, so the vocabulary
lookup over any prediction list succeeds and the unknown-index error is
unreachable. -/
theorem C3_clamped_index_is_key (dc : DatasetConversion) (syms : List String)
    (Y : List ℚ) (h : VocabRepr dc syms) (hne : syms ≠ []) :
    ∃ ss, decodeIndices dc.int_to_data
      (Y.map (fun v => scaleRoundClamp dc.int_to_data.length v)) =
        .ok ss := by
  have hlen : dc.int_to_data.length = syms.length := by
    rw [h.2]; exact List.enumFrom_length
  have hpos : 1 ≤ syms.length := List.length_pos.2 hne
  induction Y with
  | nil => exact ⟨[], rfl⟩
  | cons v Y ih =>
    obtain ⟨ss', hss'⟩ := ih
    have hb := scaleRoundClamp_mem (n := dc.int_to_data.length)
      (by omega) v
    obtain ⟨s, hs⟩ := dictGet?_vocab_isSome h hb.1
      (by rw [← hlen]; exact_mod_cast hb.2)
    refine ⟨s :: ss', ?_⟩
    simp only [List.map_cons, decodeIndices, hs, hss', Except.map]

/-- C3 witness: the amended theorem applied to the session with the
one-symbol vocabulary `{0 ↦ "a"}` and the prediction list `[3, -2]`. -/
theorem C3_witness :
    ∃ ss, decodeIndices singletonSession.int_to_data
      (([3, -2] : List ℚ).map
        (fun v => scaleRoundClamp singletonSession.int_to_data.length v)) =
      .ok ss :=
  C3_clamped_index_is_key singletonSession ["a"] [3, -2]
    ⟨by decide, by decide⟩ (by decide)

/-- C3 counterexample: the reachable sessions all have an empty
`int_to_data`, where the clamp of the raw value `1/2` produces index `-1`,
which is not a key, and `dataset_to_str` fails with `KeyError`. -/
theorem C3_counterexample :
    DatasetConversion.init "." "word" = .ok ⟨[], [], ".", "word"⟩ ∧
    scaleRoundClamp
      ((⟨[], [], ".", "word"⟩ : DatasetConversion).int_to_data.length)
      (1/2) = -1 ∧
    dictGet? ((⟨[], [], ".", "word"⟩ : DatasetConversion).int_to_data)
      (-1) = none ∧
    dataset_to_str ⟨[], [], ".", "word"⟩ [1/2] = .error "KeyError" := by
  refine ⟨by decide, ?_, by decide, ?_⟩
  · show scaleRoundClamp 0 (1/2) = -1
    have h0 : npAround ((1/2 : ℚ) * ((0 : ℕ) : ℚ)) = 0 := by
      rw [show ((1/2 : ℚ) * ((0 : ℕ) : ℚ)) = ((0 : ℤ) : ℚ) by push_cast; ring]
      exact npAround_intCast 0
    unfold scaleRoundClamp
    rw [h0]
    omega
  · rfl

/-- C7 (amended: an invalid `sep_by_type` is rejected by terminating the
process with exit code 1 — line 40 is `exit(1)` — not by returning a
configuration error result): constructing with `'word'` or `'char'`
succeeds and records that mode together with empty vocabulary maps, and
constructing with any other value terminates the process with exit code
1. -/
theorem C7_mode_validation (d s : String) :
    (s ∈ (["word", "char"] : List String) →
      DatasetConversion.init d s = .ok ⟨[], [], d, s⟩) ∧
    (s ∉ (["word", "char"] : List String) →
      DatasetConversion.init d s = .exit 1) := by
  constructor <;> intro h <;> simp [DatasetConversion.init, h]

/-- C7 witness: the mode-validation theorem applied at `'char'` (accepted,
mode recorded) and at `'midi'` (process exit 1). -/
theorem C7_witness :
    DatasetConversion.init "." "char" = .ok ⟨[], [], ".", "char"⟩ ∧
    DatasetConversion.init "." "midi" = .exit 1 :=
  ⟨(C7_mode_validation "." "char").1 (by decide),
   (C7_mode_validation "." "midi").2 (by decide)⟩

/-- C7 counterexample: constructing with the invalid mode `'line'` is a
process-terminating `exit(1)`, not a returned configuration error
result. -/
theorem C7_counterexample :
    DatasetConversion.init "." "line" = .exit 1 := by decide

/-! ### Buffer-loop lemmas for `txt_to_dataset` -/

/-- The inner write loop of one file, run for `k` iterations. -/
def runInner (m : TimestepMatrix) (nin nout step : Nat) (acc : Acc)
    (k : Nat) : Acc :=
  (List.range k).foldl (writeStep m nin nout step) acc

theorem writeStep_start (m : TimestepMatrix) (nin nout step : Nat)
    (acc : Acc) (i : Nat) :
    (writeStep m nin nout step acc i).file_example_start_idx =
      acc.file_example_start_idx := by
  unfold writeStep
  dsimp only
  split <;> rfl

theorem writeStep_no_growth (m : TimestepMatrix) (nin nout step : Nat)
    (acc : Acc) (i : Nat)
    (h0 : 0 ≤ acc.file_example_start_idx)
    (hlt : acc.file_example_start_idx + (i : ℤ) < (acc.X.length : ℤ)) :
    writeStep m nin nout step acc i =
      { acc with
        X := acc.X.set (acc.file_example_start_idx + (i : ℤ)).toNat
          ((m.drop (i * step)).take nin)
        Y := acc.Y.set (acc.file_example_start_idx + (i : ℤ)).toNat
          ((m.drop (i * step + nin)).take nout) } := by
  have hcond : ¬(acc.file_example_start_idx + (i : ℤ) ≥ (acc.X.length : ℤ)) := by
    omega
  have h0' : 0 ≤ acc.file_example_start_idx + (i : ℤ) := by omega
  simp [writeStep, pySet, hcond, h0']

theorem runInner_start (m : TimestepMatrix) (nin nout step : Nat) :
    ∀ (k : Nat) (acc : Acc),
      (runInner m nin nout step acc k).file_example_start_idx =
        acc.file_example_start_idx
  | 0, _ => rfl
  | k + 1, acc => by
    unfold runInner
    rw [List.range_succ, List.foldl_append, List.foldl_cons, List.foldl_nil,
      writeStep_start]
    exact runInner_start m nin nout step k acc

theorem runInner_len_nogrow (m : TimestepMatrix) (nin nout step : Nat) :
    ∀ (k : Nat) (acc : Acc) (s0 : Nat),
      acc.file_example_start_idx = (s0 : ℤ) →
      s0 + k ≤ acc.X.length →
      acc.Y.length = acc.X.length →
      (runInner m nin nout step acc k).X.length = acc.X.length ∧
      (runInner m nin nout step acc k).Y.length = acc.Y.length
  | 0, _, _, _, _, _ => ⟨rfl, rfl⟩
  | k + 1, acc, s0, hs, hcap, hlen => by
    have ih := runInner_len_nogrow m nin nout step k acc s0 hs (by omega) hlen
    have hstart := runInner_start m nin nout step k acc
    unfold runInner
    rw [List.range_succ, List.foldl_append, List.foldl_cons, List.foldl_nil]
    have hng := writeStep_no_growth m nin nout step
      (runInner m nin nout step acc k) k
      (by rw [hstart, hs]; exact_mod_cast Int.ofNat_nonneg s0)
      (by rw [hstart, hs, ih.1]; omega)
    rw [show (List.range k).foldl (writeStep m nin nout step) acc =
      runInner m nin nout step acc k from rfl, hng]
    constructor
    · simpa using ih.1
    · simpa using ih.2

theorem processFile_eq (nin nout step : Nat) (acc : Acc)
    (m : TimestepMatrix) :
    processFile nin nout step acc m =
      ⟨(runInner m nin nout step acc
          (num_examples m.length nin nout step).toNat).X,
       (runInner m nin nout step acc
          (num_examples m.length nin nout step).toNat).Y,
       (runInner m nin nout step acc
          (num_examples m.length nin nout step).toNat).extend_sz,
       (runInner m nin nout step acc
          (num_examples m.length nin nout step).toNat).file_example_start_idx
         + num_examples m.length nin nout step⟩ := rfl

theorem processFile_len_start (nin nout step : Nat) (acc : Acc)
    (m : TimestepMatrix) (s0 : Nat)
    (hs : acc.file_example_start_idx = (s0 : ℤ))
    (hcap : s0 + (num_examples m.length nin nout step).toNat ≤ acc.X.length)
    (hlen : acc.Y.length = acc.X.length) :
    (processFile nin nout step acc m).X.length = acc.X.length ∧
    (processFile nin nout step acc m).Y.length = acc.Y.length ∧
    (processFile nin nout step acc m).file_example_start_idx =
      (s0 : ℤ) + num_examples m.length nin nout step := by
  have h := runInner_len_nogrow m nin nout step
    (num_examples m.length nin nout step).toNat acc s0 hs hcap hlen
  have hstart := runInner_start m nin nout step
    (num_examples m.length nin nout step).toNat acc
  rw [processFile_eq]
  exact ⟨h.1, h.2, by rw [show (⟨(runInner m nin nout step acc
    (num_examples m.length nin nout step).toNat).X,
    (runInner m nin nout step acc
      (num_examples m.length nin nout step).toNat).Y,
    (runInner m nin nout step acc
      (num_examples m.length nin nout step).toNat).extend_sz,
    (runInner m nin nout step acc
      (num_examples m.length nin nout step).toNat).file_example_start_idx
      + num_examples m.length nin nout step⟩ : Acc).file_example_start_idx =
    (runInner m nin nout step acc
      (num_examples m.length nin nout step).toNat).file_example_start_idx
      + num_examples m.length nin nout step from rfl, hstart, hs]⟩

theorem initAcc_X_length (nin nout : Nat) :
    (initAcc nin nout).X.length = 10000 :=
  List.length_replicate 10000 (zeroWindow nin)

theorem initAcc_Y_length (nin nout : Nat) :
    (initAcc nin nout).Y.length = 10000 :=
  List.length_replicate 10000 (zeroWindow nout)

theorem length_sampleMatrix (T : Nat) : (sampleMatrix T).length = T := by
  simp [sampleMatrix]

theorem length_pyTruncate (xs : List Window) (n : ℤ) :
    (pyTruncate xs n).length =
      if 0 ≤ n then min n.toNat xs.length
      else min ((xs.length : ℤ) + n).toNat xs.length := by
  unfold pyTruncate
  split <;> simp [List.length_take]

theorem runInner_succ (m : TimestepMatrix) (nin nout step : Nat) (acc : Acc)
    (k : Nat) :
    runInner m nin nout step acc (k + 1) =
      writeStep m nin nout step (runInner m nin nout step acc k) k := by
  unfold runInner
  rw [List.range_succ, List.foldl_append, List.foldl_cons, List.foldl_nil]

theorem writeStep_growth (m : TimestepMatrix) (nin nout step : Nat)
    (acc : Acc) (i : Nat)
    (h0 : 0 ≤ acc.file_example_start_idx)
    (hge : acc.file_example_start_idx + (i : ℤ) ≥ (acc.X.length : ℤ)) :
    writeStep m nin nout step acc i =
      ⟨(acc.X ++ zeroBlock acc.extend_sz nin).set
         (acc.file_example_start_idx + (i : ℤ)).toNat
         ((m.drop (i * step)).take nin),
       (acc.Y ++ zeroBlock acc.extend_sz nout).set
         (acc.file_example_start_idx + (i : ℤ)).toNat
         ((m.drop (i * step + nin)).take nout),
       acc.extend_sz * 2,
       acc.file_example_start_idx⟩ := by
  have h0' : 0 ≤ acc.file_example_start_idx + (i : ℤ) := by omega
  simp [writeStep, pySet, hge, h0']

theorem length_zeroBlock (sz k : Nat) : (zeroBlock sz k).length = sz :=
  List.length_replicate sz (zeroWindow k)

/-- Invariant of the inner write loop: starting from a buffer state whose
counter sits at `s0` within capacity, after `k` iterations the buffers are
still equally long, capacity covers `s0 + k`, and slot `s0 + j` holds
exactly the `j`-th (input, output) window pair of the file — through any
number of growth events. -/
theorem runInner_content (m : TimestepMatrix) (nin nout step : Nat)
    (acc : Acc) (s0 : Nat)
    (h0 : acc.file_example_start_idx = (s0 : ℤ))
    (hext : 1 ≤ acc.extend_sz)
    (hcap0 : s0 ≤ acc.X.length)
    (hlen0 : acc.Y.length = acc.X.length) :
    ∀ k : Nat,
      1 ≤ (runInner m nin nout step acc k).extend_sz ∧
      s0 + k ≤ (runInner m nin nout step acc k).X.length ∧
      (runInner m nin nout step acc k).Y.length =
        (runInner m nin nout step acc k).X.length ∧
      ∀ j : Nat, j < k →
        (runInner m nin nout step acc k).X[s0 + j]? =
          some ((m.drop (j * step)).take nin) ∧
        (runInner m nin nout step acc k).Y[s0 + j]? =
          some ((m.drop (j * step + nin)).take nout) := by
  intro k
  induction k with
  | zero => exact ⟨hext, hcap0, hlen0, fun j hj => absurd hj (by omega)⟩
  | succ k ih =>
    obtain ⟨ihext, ihcap, ihlen, ihcont⟩ := ih
    have hstart : (runInner m nin nout step acc k).file_example_start_idx =
        (s0 : ℤ) := by rw [runInner_start, h0]
    rw [runInner_succ]
    by_cases hg : (s0 : ℤ) + (k : ℤ) <
        ((runInner m nin nout step acc k).X.length : ℤ)
    · have hw := writeStep_no_growth m nin nout step
        (runInner m nin nout step acc k) k
        (by rw [hstart]; positivity) (by rw [hstart]; exact hg)
      rw [hw]
      have htn : ((runInner m nin nout step acc k).file_example_start_idx +
          (k : ℤ)).toNat = s0 + k := by rw [hstart]; omega
      refine ⟨ihext, by simpa using (by omega :
        s0 + (k + 1) ≤ (runInner m nin nout step acc k).X.length), by
          simpa using ihlen, fun j hj => ?_⟩
      rcases Nat.lt_or_ge j k with hjk | hjk
      · have hne : (((runInner m nin nout step acc k).file_example_start_idx +
            (k : ℤ)).toNat) ≠ s0 + j := by omega
        simp only [List.getElem?_set_ne hne]
        exact ihcont j hjk
      · have hj' : j = k := by omega
        subst hj'
        rw [htn]
        constructor
        · exact List.getElem?_set_self (by omega)
        · exact List.getElem?_set_self (by rw [ihlen]; omega)
    · have hcapk : s0 + k = (runInner m nin nout step acc k).X.length := by
        omega
      have hw := writeStep_growth m nin nout step
        (runInner m nin nout step acc k) k
        (by rw [hstart]; positivity) (by rw [hstart]; omega)
      rw [hw]
      have htn : ((runInner m nin nout step acc k).file_example_start_idx +
          (k : ℤ)).toNat = s0 + k := by rw [hstart]; omega
      have hlenX : ((runInner m nin nout step acc k).X ++
          zeroBlock (runInner m nin nout step acc k).extend_sz nin).length =
          (runInner m nin nout step acc k).X.length +
            (runInner m nin nout step acc k).extend_sz := by
        rw [List.length_append, length_zeroBlock]
      have hlenY : ((runInner m nin nout step acc k).Y ++
          zeroBlock (runInner m nin nout step acc k).extend_sz nout).length =
          (runInner m nin nout step acc k).X.length +
            (runInner m nin nout step acc k).extend_sz := by
        rw [List.length_append, length_zeroBlock, ihlen]
      refine ⟨by dsimp only; omega, ?_, ?_, fun j hj => ?_⟩
      · dsimp only
        rw [List.length_set, hlenX]
        omega
      · dsimp only
        rw [List.length_set, List.length_set, hlenX, hlenY]
      · rcases Nat.lt_or_ge j k with hjk | hjk
        · have hne : (((runInner m nin nout step acc k).file_example_start_idx +
              (k : ℤ)).toNat) ≠ s0 + j := by omega
          have hjlt : s0 + j <
              (runInner m nin nout step acc k).X.length := by omega
          constructor
          · dsimp only
            rw [List.getElem?_set_ne hne, List.getElem?_append_left hjlt]
            exact (ihcont j hjk).1
          · dsimp only
            rw [List.getElem?_set_ne hne,
              List.getElem?_append_left (by rw [ihlen]; omega)]
            exact (ihcont j hjk).2
        · have hj' : j = k := by omega
          subst hj'
          rw [htn]
          constructor
          · exact List.getElem?_set_self (by rw [hlenX]; omega)
          · exact List.getElem?_set_self (by rw [hlenY]; omega)

/-- A successful `txt_to_dataset` call (both window sizes supplied,
nonzero stride) returns the truncated accumulated buffers. -/
theorem txt_to_dataset_ok (files : List TimestepMatrix) (nin nout step : Nat)
    (hstep : ¬(step = 0 ∧ files ≠ [])) :
    txt_to_dataset files (some nin) (some nout) step =
      .ok (pyTruncate
            (files.foldl (processFile nin nout step) (initAcc nin nout)).X
            (files.foldl (processFile nin nout step)
              (initAcc nin nout)).file_example_start_idx,
          pyTruncate
            (files.foldl (processFile nin nout step) (initAcc nin nout)).Y
            (files.foldl (processFile nin nout step)
              (initAcc nin nout)).file_example_start_idx) := by
  show (if step = 0 ∧ files ≠ [] then
      (Except.error "ZeroDivisionError" :
        Except String (List Window × List Window))
    else
      .ok (pyTruncate
            (files.foldl (processFile nin nout step) (initAcc nin nout)).X
            (files.foldl (processFile nin nout step)
              (initAcc nin nout)).file_example_start_idx,
          pyTruncate
            (files.foldl (processFile nin nout step) (initAcc nin nout)).Y
            (files.foldl (processFile nin nout step)
              (initAcc nin nout)).file_example_start_idx)) = _
  rw [if_neg hstep]

/-- Shape of the final `(X[:n], Y[:n])` result: just its two lengths
(`none` when the call raised). -/
def resultLengths (r : Except String (List Window × List Window)) :
    Option (Nat × Nat) :=
  match r with
  | .error _ => none
  | .ok p => some (p.1.length, p.2.length)

/-! ### Claims C1, C5, C8 -/

/-- C1: at the failing input — a 30-timestep file followed by a
10-timestep file, default window sizes 16/1, stride 1 — the short file
contributes 0 drawn examples and does not raise, but line 119 adds its
unclamped negative `num_examples = -7` to the running counter, so the
returned dataset has 6 rows instead of the 13 = `max(0,13) + max(0,-7)`
the claim requires: the short file changes the length of the returned
dataset and drops examples contributed by the other file. -/
theorem C1_short_file_shrinks_dataset :
    num_examples 30 16 1 1 = 13 ∧
    num_examples 10 16 1 1 = -7 ∧
    max 0 (num_examples 30 16 1 1) + max 0 (num_examples 10 16 1 1) = 13 ∧
    resultLengths
      (txt_to_dataset [sampleMatrix 30, sampleMatrix 10] none none 1) =
      some (6, 6) := by
  refine ⟨by decide, by decide, by decide, ?_⟩
  obtain ⟨h1X, h1Y, h1s⟩ := processFile_len_start 16 1 1 (initAcc 16 1)
    (sampleMatrix 30) 0 rfl
    (by rw [length_sampleMatrix, initAcc_X_length]; decide)
    (by rw [initAcc_X_length, initAcc_Y_length])
  rw [initAcc_X_length] at h1X
  rw [initAcc_Y_length] at h1Y
  rw [length_sampleMatrix] at h1s
  have h1s' : (processFile 16 1 1 (initAcc 16 1)
      (sampleMatrix 30)).file_example_start_idx = 13 := by rw [h1s]; decide
  obtain ⟨h2X, h2Y, h2s⟩ := processFile_len_start 16 1 1
    (processFile 16 1 1 (initAcc 16 1) (sampleMatrix 30))
    (sampleMatrix 10) 13 h1s'
    (by rw [length_sampleMatrix, h1X]; decide)
    (by rw [h1X, h1Y])
  rw [h1X] at h2X
  rw [h1Y] at h2Y
  rw [length_sampleMatrix] at h2s
  have h2s' : (processFile 16 1 1
      (processFile 16 1 1 (initAcc 16 1) (sampleMatrix 30))
      (sampleMatrix 10)).file_example_start_idx = 6 := by rw [h2s]; decide
  show resultLengths (Except.ok
    (pyTruncate (List.foldl (processFile 16 1 1) (initAcc 16 1)
        [sampleMatrix 30, sampleMatrix 10]).X
      (List.foldl (processFile 16 1 1) (initAcc 16 1)
        [sampleMatrix 30, sampleMatrix 10]).file_example_start_idx,
     pyTruncate (List.foldl (processFile 16 1 1) (initAcc 16 1)
        [sampleMatrix 30, sampleMatrix 10]).Y
      (List.foldl (processFile 16 1 1) (initAcc 16 1)
        [sampleMatrix 30, sampleMatrix 10]).file_example_start_idx)) =
    some (6, 6)
  rw [show List.foldl (processFile 16 1 1) (initAcc 16 1)
      [sampleMatrix 30, sampleMatrix 10] =
    processFile 16 1 1 (processFile 16 1 1 (initAcc 16 1) (sampleMatrix 30))
      (sampleMatrix 10) from rfl]
  rw [h2s']
  simp only [resultLengths, length_pyTruncate, h2X, h2Y]
  decide

/-- C5: at the failing input — a 20-timestep file followed by a
10-timestep file, default window sizes 16/1, stride 1 — the per-file
example counts are `max(0,3) + max(0,-7) = 3`, but the running counter
ends at `3 + (-7) = -4` and the final Python slice `X[:-4]` keeps 9996 of
the 10000 zero-initialized buffer rows: the returned arrays are not
truncated to the exact total example count and are almost entirely
residual zero padding. -/
theorem C5_zero_padding_not_truncated :
    num_examples 20 16 1 1 = 3 ∧
    num_examples 10 16 1 1 = -7 ∧
    max 0 (num_examples 20 16 1 1) + max 0 (num_examples 10 16 1 1) = 3 ∧
    resultLengths
      (txt_to_dataset [sampleMatrix 20, sampleMatrix 10] none none 1) =
      some (9996, 9996) := by
  refine ⟨by decide, by decide, by decide, ?_⟩
  obtain ⟨h1X, h1Y, h1s⟩ := processFile_len_start 16 1 1 (initAcc 16 1)
    (sampleMatrix 20) 0 rfl
    (by rw [length_sampleMatrix, initAcc_X_length]; decide)
    (by rw [initAcc_X_length, initAcc_Y_length])
  rw [initAcc_X_length] at h1X
  rw [initAcc_Y_length] at h1Y
  rw [length_sampleMatrix] at h1s
  have h1s' : (processFile 16 1 1 (initAcc 16 1)
      (sampleMatrix 20)).file_example_start_idx = 3 := by rw [h1s]; decide
  obtain ⟨h2X, h2Y, h2s⟩ := processFile_len_start 16 1 1
    (processFile 16 1 1 (initAcc 16 1) (sampleMatrix 20))
    (sampleMatrix 10) 3 h1s'
    (by rw [length_sampleMatrix, h1X]; decide)
    (by rw [h1X, h1Y])
  rw [h1X] at h2X
  rw [h1Y] at h2Y
  rw [length_sampleMatrix] at h2s
  have h2s' : (processFile 16 1 1
      (processFile 16 1 1 (initAcc 16 1) (sampleMatrix 20))
      (sampleMatrix 10)).file_example_start_idx = -4 := by rw [h2s]; decide
  show resultLengths (Except.ok
    (pyTruncate (List.foldl (processFile 16 1 1) (initAcc 16 1)
        [sampleMatrix 20, sampleMatrix 10]).X
      (List.foldl (processFile 16 1 1) (initAcc 16 1)
        [sampleMatrix 20, sampleMatrix 10]).file_example_start_idx,
     pyTruncate (List.foldl (processFile 16 1 1) (initAcc 16 1)
        [sampleMatrix 20, sampleMatrix 10]).Y
      (List.foldl (processFile 16 1 1) (initAcc 16 1)
        [sampleMatrix 20, sampleMatrix 10]).file_example_start_idx)) =
    some (9996, 9996)
  rw [show List.foldl (processFile 16 1 1) (initAcc 16 1)
      [sampleMatrix 20, sampleMatrix 10] =
    processFile 16 1 1 (processFile 16 1 1 (initAcc 16 1) (sampleMatrix 20))
      (sampleMatrix 10) from rfl]
  rw [h2s']
  simp only [resultLengths, length_pyTruncate, h2X, h2Y]
  decide

/-- C6: for a file and every example index `i` drawn from it, the input
window is exactly columns `[i*stride, i*stride + input_size)` of the
file's timestep matrix and the output window is exactly columns
`[i*stride + input_size, i*stride + input_size + output_size)` — the
output window immediately follows the input window with no gap — and that
pair is what the returned dataset holds at position `i`. -/
theorem C6_window_alignment (m : TimestepMatrix) (nin nout step i : Nat)
    (hstep : 1 ≤ step)
    (hi : (i : ℤ) < num_examples m.length nin nout step) :
    ∃ X Y, txt_to_dataset [m] (some nin) (some nout) step = .ok (X, Y) ∧
      X[i]? = some ((m.drop (i * step)).take nin) ∧
      Y[i]? = some ((m.drop (i * step + nin)).take nout) := by
  have heq := txt_to_dataset_ok [m] nin nout step (by rintro ⟨h0, -⟩; omega)
  rw [show List.foldl (processFile nin nout step) (initAcc nin nout) [m] =
    processFile nin nout step (initAcc nin nout) m from rfl] at heq
  obtain ⟨hext, hcap, hlen, hcont⟩ := runInner_content m nin nout step
    (initAcc nin nout) 0 rfl
    ((by decide : (1 : ℕ) ≤ 10000) : 1 ≤ (initAcc nin nout).extend_sz)
    (Nat.zero_le _)
    (by rw [initAcc_X_length, initAcc_Y_length])
    (num_examples m.length nin nout step).toNat
  have hFs : (processFile nin nout step (initAcc nin nout)
      m).file_example_start_idx = num_examples m.length nin nout step := by
    rw [processFile_eq]
    show (runInner m nin nout step (initAcc nin nout)
        (num_examples m.length nin nout step).toNat).file_example_start_idx +
      num_examples m.length nin nout step = _
    rw [runInner_start]
    show (0 : ℤ) + _ = _
    rw [zero_add]
  have hFX : (processFile nin nout step (initAcc nin nout) m).X =
      (runInner m nin nout step (initAcc nin nout)
        (num_examples m.length nin nout step).toNat).X := rfl
  have hFY : (processFile nin nout step (initAcc nin nout) m).Y =
      (runInner m nin nout step (initAcc nin nout)
        (num_examples m.length nin nout step).toNat).Y := rfl
  rw [hFs, hFX, hFY] at heq
  have hne0 : 0 ≤ num_examples m.length nin nout step := by omega
  have hitn : i < (num_examples m.length nin nout step).toNat := by omega
  have htrX : pyTruncate (runInner m nin nout step (initAcc nin nout)
        (num_examples m.length nin nout step).toNat).X
      (num_examples m.length nin nout step) =
      (runInner m nin nout step (initAcc nin nout)
        (num_examples m.length nin nout step).toNat).X.take
        (num_examples m.length nin nout step).toNat := by
    unfold pyTruncate
    rw [if_pos hne0]
  have htrY : pyTruncate (runInner m nin nout step (initAcc nin nout)
        (num_examples m.length nin nout step).toNat).Y
      (num_examples m.length nin nout step) =
      (runInner m nin nout step (initAcc nin nout)
        (num_examples m.length nin nout step).toNat).Y.take
        (num_examples m.length nin nout step).toNat := by
    unfold pyTruncate
    rw [if_pos hne0]
  rw [htrX, htrY] at heq
  refine ⟨_, _, heq, ?_, ?_⟩
  · rw [List.getElem?_take, if_pos hitn]
    have := (hcont i hitn).1
    rwa [zero_add] at this
  · rw [List.getElem?_take, if_pos hitn]
    have := (hcont i hitn).2
    rwa [zero_add] at this

/-- C6 witness: the alignment theorem applied to a 20-timestep file with
window sizes 16/1, stride 1, example index 1. -/
theorem C6_witness :
    ∃ X Y, txt_to_dataset [sampleMatrix 20] (some 16) (some 1) 1 =
        .ok (X, Y) ∧
      X[1]? = some (((sampleMatrix 20).drop (1 * 1)).take 16) ∧
      Y[1]? = some (((sampleMatrix 20).drop (1 * 1 + 16)).take 1) :=
  C6_window_alignment (sampleMatrix 20) 16 1 1 1 (by decide)
    (by rw [length_sampleMatrix]; decide)

/-- C8: over a directory with no matching `.txt` files (an empty parsed
corpus), any call whose window sizes resolve successfully returns the pair
of empty datasets — example-count dimension 0 — without raising; the empty
corpus is a valid non-error outcome. -/
theorem C8_empty_corpus (iws ows : Option Nat) (nout step : Nat)
    (h : resolve_num_output iws ows = some nout) :
    txt_to_dataset [] iws ows step = .ok ([], []) := by
  unfold txt_to_dataset
  rw [h]
  simp [pyTruncate, initAcc]

/-- C8 witness: the default call (`input_window_size` and
`output_window_size` omitted, stride 1) over the empty corpus. -/
theorem C8_witness : txt_to_dataset [] none none 1 = .ok ([], []) :=
  C8_empty_corpus none none 1 1 rfl

/-- C2: at the failing input — `txt_to_dataset` called with
`input_window_size = 20` supplied and `output_window_size` omitted — line
73 resolves the output size from the `input_window_size is None` guard, so
`num_output_size` is `None` and line 79 raises `TypeError`; the claimed
independently-resolved default of 1 is not used. -/
theorem C2_output_default_copy_paste_defect :
    resolve_num_output (some 20) none = none ∧
    txt_to_dataset [sampleMatrix 30] (some 20) none 1 =
      .error "TypeError" :=
  ⟨rfl, rfl⟩


/-! ### Claim C9: encode/decode round trip -/

theorem enum_eq {α : Type} (l : List α) : l.enum = l.enumFrom 0 := rfl

theorem enumFrom_append_singleton {α : Type} :
    ∀ (l : List α) (n : Nat) (a : α),
      (l ++ [a]).enumFrom n = l.enumFrom n ++ [(n + l.length, a)]
  | [], n, a => by simp
  | b :: l, n, a => by
    simp only [List.cons_append, List.enumFrom_cons,
      enumFrom_append_singleton l (n + 1) a, List.length_cons]
    rw [show n + 1 + l.length = n + (l.length + 1) from by omega]

theorem find?_swap_spec :
    ∀ (l : List String) (n : Nat) (s : String) (q : String × Nat),
      ((l.enumFrom n).map (fun p => (p.2, p.1))).find?
        (fun p => p.1 == s) = some q →
      q.1 = s ∧ n ≤ q.2 ∧ q.2 - n < l.length ∧ l[q.2 - n]? = some s
  | [], _, _, _ => by
    intro h
    simp at h
  | a :: l, n, s, q => by
    intro h
    rw [List.enumFrom_cons, List.map_cons] at h
    by_cases ha : a = s
    · rw [List.find?_cons_of_pos _ (by simpa using ha)] at h
      cases h
      refine ⟨ha, Nat.le_refl n, ?_, ?_⟩
      · simp only [Nat.sub_self, List.length_cons]
        omega
      · simp [Nat.sub_self, List.getElem?_cons_zero, ha]
    · rw [List.find?_cons_of_neg _ (by simpa using ha)] at h
      obtain ⟨h1, h2, h3, h4⟩ := find?_swap_spec l (n + 1) s q h
      refine ⟨h1, by omega, by simp only [List.length_cons]; omega, ?_⟩
      rw [show q.2 - n = (q.2 - (n + 1)) + 1 from by omega,
        List.getElem?_cons_succ]
      exact h4

theorem encodeSymbol_spec (dc : DatasetConversion) (syms : List String)
    (s : String) (h : VocabRepr dc syms) :
    ∃ syms', VocabRepr (encodeSymbol dc s).1 syms' ∧
      (∃ t, syms' = syms ++ t) ∧
      (encodeSymbol dc s).1.sep_by_type = dc.sep_by_type ∧
      (encodeSymbol dc s).2 < syms'.length ∧
      syms'[(encodeSymbol dc s).2]? = some s := by
  obtain ⟨hd, hi⟩ := h
  cases hf : dc.data_to_int.find? (fun p => p.1 == s) with
  | some q =>
    have hq : ((syms.enumFrom 0).map (fun p => (p.2, p.1))).find?
        (fun p => p.1 == s) = some q := by
      rw [show syms.enumFrom 0 = syms.enum from rfl, ← hd]
      exact hf
    obtain ⟨hq1, hq2, hq3, hq4⟩ := find?_swap_spec syms 0 s q hq
    have hE : encodeSymbol dc s = (dc, q.2) := by
      simp only [encodeSymbol, hf, Option.map_some']
    rw [hE]
    exact ⟨syms, ⟨hd, hi⟩, ⟨[], by simp⟩, rfl,
      by simpa using hq3, by simpa using hq4⟩
  | none =>
    have hlen : dc.data_to_int.length = syms.length := by
      rw [hd, List.length_map]
      exact List.enumFrom_length
    have hE : encodeSymbol dc s =
        ({ dc with
            data_to_int := dc.data_to_int ++ [(s, dc.data_to_int.length)]
            int_to_data := dc.int_to_data ++ [(dc.data_to_int.length, s)] },
          dc.data_to_int.length) := by
      simp only [encodeSymbol, hf, Option.map_none']
    rw [hE]
    refine ⟨syms ++ [s], ⟨?_, ?_⟩, ⟨[s], rfl⟩, rfl, ?_, ?_⟩
    · show dc.data_to_int ++ [(s, dc.data_to_int.length)] =
        ((syms ++ [s]).enum).map (fun p => (p.2, p.1))
      rw [hlen, hd, enum_eq (syms ++ [s]), enumFrom_append_singleton,
        List.map_append]
      simp [enum_eq]
    · show dc.int_to_data ++ [(dc.data_to_int.length, s)] = (syms ++ [s]).enum
      rw [hlen, hi, enum_eq (syms ++ [s]), enumFrom_append_singleton]
      simp [enum_eq]
    · show dc.data_to_int.length < (syms ++ [s]).length
      rw [hlen, List.length_append]
      simp
    · show (syms ++ [s])[dc.data_to_int.length]? = some s
      rw [hlen]
      exact List.getElem?_concat_length syms s

theorem encode_sequence_spec :
    ∀ (ss : List String) (dc : DatasetConversion) (syms : List String),
      VocabRepr dc syms →
      ∃ syms', VocabRepr (encode_sequence dc ss).1 syms' ∧
        (∃ t, syms' = syms ++ t) ∧
        (encode_sequence dc ss).1.sep_by_type = dc.sep_by_type ∧
        (encode_sequence dc ss).2.length = ss.length ∧
        (∀ (j b : Nat) (a : String), (encode_sequence dc ss).2[j]? = some b →
          ss[j]? = some a → b < syms'.length ∧ syms'[b]? = some a)
  | [], dc, syms, h => by
    refine ⟨syms, h, ⟨[], by simp⟩, rfl, rfl, ?_⟩
    intro j b a hb _
    have hb' : ([] : List Nat)[j]? = some b := hb
    simp at hb'
  | s :: rest, dc, syms, h => by
    obtain ⟨syms1, h1, ⟨t1, ht1⟩, hsep1, hlt1, hget1⟩ :=
      encodeSymbol_spec dc syms s h
    obtain ⟨syms', h2, ⟨t2, ht2⟩, hsep2, hlen2, hpt2⟩ :=
      encode_sequence_spec rest (encodeSymbol dc s).1 syms1 h1
    refine ⟨syms', h2,
      ⟨t1 ++ t2, by rw [ht2, ht1, List.append_assoc]⟩, ?_, ?_, ?_⟩
    · show (encode_sequence (encodeSymbol dc s).1 rest).1.sep_by_type =
        dc.sep_by_type
      exact hsep2.trans hsep1
    · show ((encodeSymbol dc s).2 ::
        (encode_sequence (encodeSymbol dc s).1 rest).2).length =
        (s :: rest).length
      rw [List.length_cons, List.length_cons, hlen2]
    · intro j b a hb ha
      have hb' : ((encodeSymbol dc s).2 ::
          (encode_sequence (encodeSymbol dc s).1 rest).2)[j]? = some b := hb
      cases j with
      | zero =>
        rw [List.getElem?_cons_zero] at hb'
        rw [List.getElem?_cons_zero] at ha
        cases hb'
        cases ha
        constructor
        · rw [ht2, List.length_append]
          omega
        · rw [ht2, List.getElem?_append_left hlt1]
          exact hget1
      | succ j =>
        rw [List.getElem?_cons_succ] at hb'
        rw [List.getElem?_cons_succ] at ha
        exact hpt2 j b a hb' ha

theorem decodeIndices_map_ok :
    ∀ (is : List Nat) (ss : List String) (syms : List String),
      is.length = ss.length →
      (∀ (j b : Nat) (a : String), is[j]? = some b → ss[j]? = some a →
        b < syms.length ∧ syms[b]? = some a) →
      decodeIndices syms.enum (is.map (fun b : Nat => (b : ℤ))) = .ok ss
  | [], [], _, _, _ => rfl
  | [], _ :: _, _, hlen, _ => by simp at hlen
  | _ :: _, [], _, hlen, _ => by simp at hlen
  | b :: is, a :: ss, syms, hlen, hpt => by
    have h0 := hpt 0 b a (by simp) (by simp)
    have hd : dictGet? syms.enum ((b : Nat) : ℤ) = some a := by
      rw [dictGet?_enum syms b h0.1]
      exact h0.2
    have ih := decodeIndices_map_ok is ss syms (by simpa using hlen)
      (fun j bb aa hbb haa =>
        hpt (j + 1) bb aa (by simpa using hbb) (by simpa using haa))
    simp only [List.map_cons, decodeIndices, hd, ih, Except.map]

theorem scaleRoundClamp_quantIdentity (n b : Nat) (hb : b < n) :
    scaleRoundClamp n (quantIdentity n b) = (b : ℤ) := by
  have hn0 : ((n : ℚ)) ≠ 0 := Nat.cast_ne_zero.2 (by omega)
  have hmul : quantIdentity n b * (n : ℚ) = ((b : ℤ) : ℚ) := by
    unfold quantIdentity
    rw [div_mul_cancel₀ _ hn0]
    push_cast
    ring
  unfold scaleRoundClamp
  rw [hmul, npAround_intCast]
  omega

theorem round_trip_core (dc : DatasetConversion) (syms0 ss : List String)
    (h : VocabRepr dc syms0) :
    (encode_sequence dc ss).1.sep_by_type = dc.sep_by_type ∧
    decodeIndices (encode_sequence dc ss).1.int_to_data
      (((encode_sequence dc ss).2.map (fun b =>
          quantIdentity (encode_sequence dc ss).1.int_to_data.length b)).map
        (fun v => scaleRoundClamp
          (encode_sequence dc ss).1.int_to_data.length v)) = .ok ss := by
  obtain ⟨syms', hrepr, ⟨t, ht⟩, hsep, hlen, hpt⟩ :=
    encode_sequence_spec ss dc syms0 h
  refine ⟨hsep, ?_⟩
  have hn : (encode_sequence dc ss).1.int_to_data.length = syms'.length := by
    rw [hrepr.2]
    exact List.enumFrom_length
  rw [List.map_map]
  have hcong : (encode_sequence dc ss).2.map
      ((fun v => scaleRoundClamp
          (encode_sequence dc ss).1.int_to_data.length v) ∘
        (fun b => quantIdentity
          (encode_sequence dc ss).1.int_to_data.length b)) =
      (encode_sequence dc ss).2.map (fun b : Nat => (b : ℤ)) := by
    apply List.map_congr_left
    intro b hb
    obtain ⟨j, hj⟩ := List.mem_iff_getElem?.1 hb
    obtain ⟨hjlt, -⟩ := List.getElem?_eq_some_iff.1 hj
    have hjss : j < ss.length := by omega
    obtain ⟨hblt, -⟩ := hpt j b (ss.get ⟨j, hjss⟩) hj
      (by rw [List.getElem?_eq_getElem hjss]; rfl)
    show scaleRoundClamp (encode_sequence dc ss).1.int_to_data.length
      (quantIdentity (encode_sequence dc ss).1.int_to_data.length b) = (b : ℤ)
    rw [hn]
    exact scaleRoundClamp_quantIdentity syms'.length b hblt
  rw [hcong, hrepr.2]
  exact decodeIndices_map_ok (encode_sequence dc ss).2 ss syms' hlen hpt

theorem dataset_to_str_eq_of_ok (dc : DatasetConversion) (Y : List ℚ)
    (ss : List String)
    (hd : decodeIndices dc.int_to_data
      (Y.map (fun v => scaleRoundClamp dc.int_to_data.length v)) = .ok ss) :
    dataset_to_str dc Y =
      (if dc.sep_by_type = "word" then
        .ok (String.intercalate (String.singleton SEPARATOR) ss)
      else if dc.sep_by_type = "char" then .ok (String.join ss)
      else .error "UnboundLocalError") := by
  unfold dataset_to_str
  simp only [hd]

/-- C9 (spec-modelled encoder): for any symbol sequence, encoding it with
the spec's Vocabulary Codec starting from a fresh session, applying the
quantized identity encoding `i ↦ i / vocabulary_size`, and decoding with
the source's `dataset_to_str` reproduces the original symbolic text
exactly: in word mode the symbols joined with `SEPARATOR`, in char mode
their plain concatenation — a lossless round trip. -/
theorem C9_encode_decode_round_trip (ss : List String) :
    dataset_to_str (encode_sequence ⟨[], [], ".", "word"⟩ ss).1
      ((encode_sequence ⟨[], [], ".", "word"⟩ ss).2.map
        (fun b => quantIdentity
          (encode_sequence ⟨[], [], ".", "word"⟩ ss).1.int_to_data.length b))
      = .ok (String.intercalate (String.singleton SEPARATOR) ss) ∧
    dataset_to_str (encode_sequence ⟨[], [], ".", "char"⟩ ss).1
      ((encode_sequence ⟨[], [], ".", "char"⟩ ss).2.map
        (fun b => quantIdentity
          (encode_sequence ⟨[], [], ".", "char"⟩ ss).1.int_to_data.length b))
      = .ok (String.join ss) := by
  constructor
  · obtain ⟨hsep, hdec⟩ :=
      round_trip_core ⟨[], [], ".", "word"⟩ [] ss ⟨rfl, rfl⟩
    rw [dataset_to_str_eq_of_ok _ _ ss hdec, hsep, if_pos rfl]
  · obtain ⟨hsep, hdec⟩ :=
      round_trip_core ⟨[], [], ".", "char"⟩ [] ss ⟨rfl, rfl⟩
    rw [dataset_to_str_eq_of_ok _ _ ss hdec, hsep, if_neg (by decide),
      if_pos rfl]


/-! ### Claim C10 -/

/-- C10: in every reachable state of a `DatasetConversion` session the two
vocabulary mappings `data_to_int` and `int_to_data` are empty — they are
created empty at construction and none of the four public operations
(`midi_to_txt`, `txt_to_dataset`, `dataset_to_str`, `str_to_midi`) ever
inserts an entry into either. -/
theorem C10_vocab_always_empty (dc : DatasetConversion) (h : Reachable dc) :
    dc.data_to_int = [] ∧ dc.int_to_data = [] := by
  induction h with
  | init d s dc hinit =>
    unfold DatasetConversion.init at hinit
    split at hinit
    · cases hinit
      exact ⟨rfl, rfl⟩
    · cases hinit
  | midi_to_txt dc _ ih => exact ih
  | txt_to_dataset dc fs iws ows st _ ih => exact ih
  | dataset_to_str dc Y _ ih => exact ih
  | str_to_midi dc t fn _ ih => exact ih

/-- C10 witness: the invariant applied to the state constructed by
`DatasetConversion('.', 'word')`. -/
theorem C10_witness :
    (⟨[], [], ".", "word"⟩ : DatasetConversion).data_to_int = [] ∧
    (⟨[], [], ".", "word"⟩ : DatasetConversion).int_to_data = [] :=
  C10_vocab_always_empty ⟨[], [], ".", "word"⟩
    (Reachable.init "." "word" _ (by decide))

end Music
